import Mathlib

/-!
Shallow embedding of `src/first_game.py`, a Pygame Snake game, together with
theorems checking the specification's claims about it.

Modelling conventions:
* Pixel coordinates and times are `Int` (Python ints; `pygame.time.get_ticks`
  returns a nonnegative int, subtraction in `move` is ordinary int subtraction).
* `pygame.Rect` becomes the `Rect` structure; `colliderect` is pygame's
  strict-overlap test (shared edges do not collide).
* `pygame.Vector2` grid positions become `Pos = Int × Int`.
* In the source, `snake.parts[0]` is the very object `snake.head` (aliasing
  that no statement of the program ever breaks: the list is only appended to,
  and only indices `i ≥ 1` are reassigned), so the embedding stores the snake
  as `head` plus `tail` and defines `parts = head :: tail`.
* Randomness: `randrange(n)` is modelled by an explicit draw parameter bounded
  by `n`; the potentially endless resampling loop in `Apple.__init__` receives
  the list of successive draws and returns `none` when none of them is
  accepted (the loop would still be running).
* Pygame's display, clock, fonts and drawing are not modelled; the game state
  kept is `snake`, `apple` and the `running` flag.
-/

abbrev Pos := Int × Int

/-- `pygame.Rect`: an axis-aligned rectangle given by its top-left corner and
its width and height. -/
structure Rect where
  x : Int
  y : Int
  w : Int
  h : Int
deriving DecidableEq, Repr

def Rect.topleft (r : Rect) : Pos := (r.x, r.y)

def mkRect (p : Pos) (w h : Int) : Rect :=
  { x := p.1, y := p.2, w := w, h := h }

/-- `pygame.Rect.colliderect`: true when the two rectangles overlap with
positive area (rectangles that merely share an edge do not collide). -/
def colliderect (a b : Rect) : Bool :=
  decide (a.x < b.x + b.w) && decide (b.x < a.x + a.w) &&
  decide (a.y < b.y + b.h) && decide (b.y < a.y + a.h)

/-- Python's `v in range(n)` for an int `v`: `0 ≤ v < n`. -/
def inPyRange (v n : Int) : Bool :=
  decide (0 ≤ v) && decide (v < n)

/-- The four values of the `direction` string attribute. -/
inductive Direction
  | UP
  | DOWN
  | LEFT
  | RIGHT
deriving DecidableEq, Repr, Fintype

/-- Game-wide constant `screen_size.x = 800`. -/
def screenSizeX : Int := 800

/-- Game-wide constant `screen_size.y = 600`. -/
def screenSizeY : Int := 600

/-- Game-wide constant `object_size = 20`. -/
def objectSize : Int := 20

/-- `Game.get_random_position`: both coordinates are a `randrange` draw times
`object_size`; the draws `i < screen_size.x // object_size` and
`j < screen_size.y // object_size` are passed in explicitly. -/
def get_random_position (i j : Nat) : Pos :=
  ((i : Int) * objectSize, (j : Int) * objectSize)

/-- The state of the `Snake` object. `parts[0]` aliases `head` in the source,
so the head is stored separately and `parts` is derived. -/
structure Snake where
  head : Rect
  tail : List Rect
  direction : Direction
  size : Int
  minMoveDelay : Int
  moveDelayStep : Int
  moveDelay : Int
  lastMoveTime : Int
deriving DecidableEq, Repr

def Snake.parts (s : Snake) : List Rect := s.head :: s.tail

/-- `Snake.__init__` at a given start position and current tick count. -/
def snakeInit (pos : Pos) (t : Int) : Snake :=
  { head := mkRect pos objectSize objectSize
    tail := []
    direction := Direction.RIGHT
    size := objectSize
    minMoveDelay := 50
    moveDelayStep := 5
    moveDelay := 200
    lastMoveTime := t }

/-- The state of the `Apple` object (the color is a constant and not kept). -/
structure Apple where
  rect : Rect
deriving DecidableEq, Repr

/-- The game state the claims are about: `Game.snake`, `Game.apple`,
`Game.running`. -/
structure Game where
  snake : Snake
  apple : Apple
  running : Bool
deriving DecidableEq, Repr

/-- The loop condition of `Apple.__init__`: a freshly drawn position is
rejected while it equals the previous apple position (`Vector2 == None` is
false, hence the `Option`) or coincides with the top-left corner of some
element of `snake.parts[1:]`. -/
def appleReject (oldPos : Option Pos) (parts : List Rect) (p : Pos) : Bool :=
  (some p == oldPos) || (parts.drop 1).any (fun part => p == part.topleft)

/-- The resampling loop of `Apple.__init__` run over the successive
`get_random_position` outputs: the first accepted position, or `none` when
every provided draw is rejected (the loop is still running). -/
def findAccepted (oldPos : Option Pos) (parts : List Rect) : List Pos → Option Pos
  | [] => none
  | p :: rest =>
      if appleReject oldPos parts p then findAccepted oldPos parts rest
      else some p

/-- `Apple.__init__`: sample until accepted, then build the rect of size
`object_size × object_size` at the accepted position. -/
def appleInit (oldPos : Option Pos) (parts : List Rect) (cands : List Pos) :
    Option Apple :=
  match findAccepted oldPos parts cands with
  | none => none
  | some p => some ⟨mkRect p objectSize objectSize⟩

/-- `Snake.grow`: the offset applied to the copy of the last part, the
`if`/`elif` chain of the source. -/
def growOffset (d : Direction) (size : Int) (r : Rect) : Rect :=
  match d with
  | Direction.UP => { r with y := r.y + size }
  | Direction.DOWN => { r with y := r.y - size }
  | Direction.LEFT => { r with x := r.x + size }
  | Direction.RIGHT => { r with x := r.x - size }

/-- `Snake.grow`: copy the last part, shift it one cell opposite to the
movement, and append it. -/
def Snake.grow (s : Snake) : Snake :=
  let last_part := s.tail.getLastD s.head
  let new_part := growOffset s.direction s.size
      (mkRect last_part.topleft s.size s.size)
  { s with tail := s.tail ++ [new_part] }

/-- `Snake.increase_speed`: `move_delay = max(min_move_delay, move_delay -
move_delay_step)`. -/
def Snake.increase_speed (s : Snake) : Snake :=
  { s with moveDelay := max s.minMoveDelay (s.moveDelay - s.moveDelayStep) }

/-- The terminal condition of `Snake.check_collision`: the head collides with
some part of `parts[1:]`, or `head.x not in range(800)`, or
`head.y not in range(600)`. -/
def collisionCond (s : Snake) : Bool :=
  (s.parts.drop 1).any (fun part => colliderect s.head part)
  || !inPyRange s.head.x screenSizeX
  || !inPyRange s.head.y screenSizeY

/-- `Snake.check_collision`: set `running` to `False` on a terminal collision,
then, when the head overlaps the apple, grow, speed up and respawn the apple
(the respawn passes no `old_position`, so it is `none` here); `cands` are the
position draws available to the respawn loop, `none` meaning the loop accepted
no draw. -/
def check_collision (cands : List Pos) (g : Game) : Option Game :=
  let g1 := if collisionCond g.snake then { g with running := false } else g
  if colliderect g1.snake.head g1.apple.rect then
    let s2 := g1.snake.grow.increase_speed
    (appleInit none s2.parts cands).map
      (fun a => { g1 with snake := s2, apple := a })
  else some g1

/-- One cell of movement of the head, the four `if`s of `Snake.move`. -/
def moveHead (d : Direction) (size : Int) (r : Rect) : Rect :=
  match d with
  | Direction.UP => { r with y := r.y - size }
  | Direction.DOWN => { r with y := r.y + size }
  | Direction.LEFT => { r with x := r.x - size }
  | Direction.RIGHT => { r with x := r.x + size }

/-- The backward loop `for i in range(len(parts)-1, 0, -1):
parts[i].topleft = parts[i-1].topleft`: since indices are visited from the
end, each part receives the position its predecessor held before the loop. -/
def shiftTail (prev : Rect) : List Rect → List Rect
  | [] => []
  | r :: rest => { r with x := prev.x, y := prev.y } :: shiftTail r rest

/-- `Snake.move` at tick `currentTime`: return unchanged unless strictly more
than `move_delay` ms have passed; otherwise shift the tail, advance the head,
record the time and run `check_collision` (whose apple respawn consumes
`cands`). -/
def Snake.move (currentTime : Int) (cands : List Pos) (g : Game) :
    Option Game :=
  if currentTime - g.snake.lastMoveTime ≤ g.snake.moveDelay then some g
  else
    let s := g.snake
    let s1 := { s with
        head := moveHead s.direction s.size s.head
        tail := shiftTail s.head s.tail
        lastMoveTime := currentTime }
    check_collision cands { g with snake := s1 }

/-- The keys the game reacts to (`K_other` stands for every other key). -/
inductive PyKey
  | K_UP
  | K_w
  | K_DOWN
  | K_s
  | K_LEFT
  | K_a
  | K_RIGHT
  | K_d
  | K_ESCAPE
  | K_other
deriving DecidableEq, Repr, Fintype

/-- The `key_to_direction` dict of `Game.handle_input`. -/
def keyToDirection : PyKey → Option Direction
  | PyKey.K_UP => some Direction.UP
  | PyKey.K_w => some Direction.UP
  | PyKey.K_DOWN => some Direction.DOWN
  | PyKey.K_s => some Direction.DOWN
  | PyKey.K_LEFT => some Direction.LEFT
  | PyKey.K_a => some Direction.LEFT
  | PyKey.K_RIGHT => some Direction.RIGHT
  | PyKey.K_d => some Direction.RIGHT
  | PyKey.K_ESCAPE => none
  | PyKey.K_other => none

/-- The events `Game.handle_input` inspects. -/
inductive PyEvent
  | quit
  | keydown (key : PyKey)
  | otherEvent
deriving DecidableEq, Repr

/-- The reversal filter of `Game.handle_input`, the four-way disjunction of
the source. -/
def directionAllowed (nd cur : Direction) : Bool :=
  (nd == Direction.UP && cur != Direction.DOWN)
  || (nd == Direction.DOWN && cur != Direction.UP)
  || (nd == Direction.LEFT && cur != Direction.RIGHT)
  || (nd == Direction.RIGHT && cur != Direction.LEFT)

/-- The body of the event loop of `Game.handle_input` for one event. -/
def handle_event (g : Game) (e : PyEvent) : Game :=
  match e with
  | PyEvent.quit => { g with running := false }
  | PyEvent.keydown k =>
      match keyToDirection k with
      | some nd =>
          if directionAllowed nd g.snake.direction then
            { g with snake := { g.snake with direction := nd } }
          else g
      | none =>
          if k == PyKey.K_ESCAPE then { g with running := false } else g
  | PyEvent.otherEvent => g

/-- `Game.handle_input`: fold the event handler over the event list. -/
def handle_input (g : Game) (events : List PyEvent) : Game :=
  events.foldl handle_event g

/-- The events that clear the `running` flag in `handle_input`: a `QUIT`
event or an Escape `KEYDOWN`. -/
def isCancelEvent (e : PyEvent) : Bool :=
  match e with
  | PyEvent.quit => true
  | PyEvent.keydown k => k == PyKey.K_ESCAPE
  | PyEvent.otherEvent => false

/-- The direction opposite to a given one (spec-side notion used to state the
no-180°-reversal claims). -/
def oppositeDir : Direction → Direction
  | Direction.UP => Direction.DOWN
  | Direction.DOWN => Direction.UP
  | Direction.LEFT => Direction.RIGHT
  | Direction.RIGHT => Direction.LEFT

/-- One cell of displacement in a direction (spec-side notion used to state
the movement and growth claims). -/
def dirOffset (d : Direction) (size : Int) : Pos :=
  match d with
  | Direction.UP => (0, -size)
  | Direction.DOWN => (0, size)
  | Direction.LEFT => (-size, 0)
  | Direction.RIGHT => (size, 0)

/-- The snake states reachable in the program: the constructor state and the
closure under the four statements of the source that mutate a snake (the
direction assignment of `handle_input`, the tail-shift/head-advance/timestamp
update of `move`, `grow`, and `increase_speed`). -/
inductive ReachableSnake : Snake → Prop
  | init (pos : Pos) (t : Int) : ReachableSnake (snakeInit pos t)
  | handle_dir (s : Snake) (d : Direction) :
      ReachableSnake s → ReachableSnake { s with direction := d }
  | move_step (s : Snake) (t : Int) :
      ReachableSnake s → ReachableSnake { s with
        head := moveHead s.direction s.size s.head
        tail := shiftTail s.head s.tail
        lastMoveTime := t }
  | grow_step (s : Snake) : ReachableSnake s → ReachableSnake s.grow
  | speed_step (s : Snake) : ReachableSnake s → ReachableSnake s.increase_speed

/-! ## Helper lemmas -/

lemma shiftTail_length (prev : Rect) (l : List Rect) :
    (shiftTail prev l).length = l.length := by
  induction l generalizing prev with
  | nil => rfl
  | cons r rest ih => simp [shiftTail, ih]

lemma shiftTail_map_topleft (prev : Rect) (l : List Rect) :
    (shiftTail prev l).map Rect.topleft =
      ((prev :: l).take l.length).map Rect.topleft := by
  induction l generalizing prev with
  | nil => rfl
  | cons r rest ih => simp [shiftTail, Rect.topleft, ih]

lemma findAccepted_not_rejected (oldPos : Option Pos) (parts : List Rect)
    (cands : List Pos) (p : Pos)
    (h : findAccepted oldPos parts cands = some p) :
    appleReject oldPos parts p = false := by
  induction cands with
  | nil => simp [findAccepted] at h
  | cons c rest ih =>
      by_cases hc : appleReject oldPos parts c = true
      · exact ih (by simpa [findAccepted, hc] using h)
      · simp only [findAccepted, hc, if_neg, Bool.not_eq_true] at h
        simp only [Bool.not_eq_true] at hc
        cases h
        exact hc

/-! ## Sample concrete states for witnesses -/

/-- A concrete snake: the constructor state at position `(100, 100)`. -/
def sampleSnake : Snake := snakeInit (100, 100) 0

/-- A concrete game: the sample snake, an apple away from it, running. -/
def sampleGame : Game :=
  { snake := sampleSnake, apple := ⟨mkRect (400, 300) 20 20⟩, running := true }

/-! ## Claims -/

/-- C9: every position returned by `get_random_position` (whose two `randrange`
draws are bounded by `screen_size.x // object_size` and
`screen_size.y // object_size`) has both coordinates non-negative multiples of
`object_size`, with `x < 800` and `y < 600`. -/
theorem C9_random_position_grid_aligned (i j : Nat)
    (hi : (i : Int) < screenSizeX / objectSize)
    (hj : (j : Int) < screenSizeY / objectSize) :
    (get_random_position i j).1 % objectSize = 0 ∧
    (get_random_position i j).2 % objectSize = 0 ∧
    0 ≤ (get_random_position i j).1 ∧
    (get_random_position i j).1 < screenSizeX ∧
    0 ≤ (get_random_position i j).2 ∧
    (get_random_position i j).2 < screenSizeY := by
  simp only [get_random_position, screenSizeX, screenSizeY, objectSize] at *
  omega

/-- Witness for C9 at draws `i = 3`, `j = 4`. -/
theorem C9_witness :
    (get_random_position 3 4).1 % objectSize = 0 ∧
    (get_random_position 3 4).2 % objectSize = 0 ∧
    0 ≤ (get_random_position 3 4).1 ∧
    (get_random_position 3 4).1 < screenSizeX ∧
    0 ≤ (get_random_position 3 4).2 ∧
    (get_random_position 3 4).2 < screenSizeY :=
  C9_random_position_grid_aligned 3 4 (by decide) (by decide)

/-- C10: calling `move` when the elapsed time since the last move is at most
`move_delay` returns the game state unchanged (and in particular reaches
neither the segment update nor `check_collision`). -/
theorem C10_move_within_delay_is_noop (t : Int) (cands : List Pos) (g : Game)
    (h : t - g.snake.lastMoveTime ≤ g.snake.moveDelay) :
    Snake.move t cands g = some g := by
  simp [Snake.move, h]

/-- Witness for C10: the sample game, 100 ms after its last move (delay 200). -/
theorem C10_witness : Snake.move 100 [] sampleGame = some sampleGame :=
  C10_move_within_delay_is_noop 100 [] sampleGame (by decide)

/-- C4: `grow` appends exactly one segment, placed at the last segment's
position offset one cell opposite to the movement direction and sized
`size × size`, and changes no other field of the snake (the existing
segments, head, direction, delays and timestamp are untouched). -/
theorem C4_grow_appends_opposite_segment (s : Snake) :
    (s.grow).parts.length = s.parts.length + 1 ∧
    (s.grow).parts.take s.parts.length = s.parts ∧
    ((s.grow).parts.getLastD s.head).topleft =
      (s.parts.getLastD s.head).topleft +
        dirOffset (oppositeDir s.direction) s.size ∧
    ((s.grow).parts.getLastD s.head).w = s.size ∧
    ((s.grow).parts.getLastD s.head).h = s.size ∧
    (s.grow).head = s.head ∧
    (s.grow).direction = s.direction ∧
    (s.grow).size = s.size ∧
    (s.grow).minMoveDelay = s.minMoveDelay ∧
    (s.grow).moveDelayStep = s.moveDelayStep ∧
    (s.grow).moveDelay = s.moveDelay ∧
    (s.grow).lastMoveTime = s.lastMoveTime := by
  have hparts : (s.grow).parts = s.parts ++ [growOffset s.direction s.size
      (mkRect (s.parts.getLastD s.head).topleft s.size s.size)] := by
    simp only [Snake.grow, Snake.parts, List.getLastD_cons, List.cons_append]
  have hlast : (s.grow).parts.getLastD s.head = growOffset s.direction s.size
      (mkRect (s.parts.getLastD s.head).topleft s.size s.size) := by
    rw [hparts, List.getLastD_concat]
  refine ⟨?_, ?_, ?_, ?_, ?_, rfl, rfl, rfl, rfl, rfl, rfl, rfl⟩
  · rw [hparts]; simp
  · rw [hparts]; simp
  · rw [hlast]
    cases hd : s.direction <;>
      simp [growOffset, mkRect, Rect.topleft, oppositeDir, dirOffset,
        Prod.ext_iff, sub_eq_add_neg]
  · rw [hlast]; cases s.direction <;> rfl
  · rw [hlast]; cases s.direction <;> rfl

/-- Along every reachable snake state the floor stays below the delay and the
step stays non-negative; only `increase_speed` touches the delay fields. -/
lemma reachable_delay_inv (s : Snake) (h : ReachableSnake s) :
    s.minMoveDelay ≤ s.moveDelay ∧ 0 ≤ s.moveDelayStep := by
  induction h with
  | init pos t => exact ⟨by norm_num [snakeInit], by norm_num [snakeInit]⟩
  | handle_dir s d _ ih => exact ih
  | move_step s t _ ih => exact ih
  | grow_step s _ ih => exact ih
  | speed_step s _ ih => exact ⟨le_max_left _ _, ih.2⟩

/-- C6: on every reachable snake state the movement delay respects the floor
(`move_delay ≥ min_move_delay`), and `increase_speed` never increases the
delay while keeping it at or above the floor. -/
theorem C6_move_delay_floor (s : Snake) (h : ReachableSnake s) :
    s.minMoveDelay ≤ s.moveDelay ∧
    (s.increase_speed).moveDelay ≤ s.moveDelay ∧
    s.minMoveDelay ≤ (s.increase_speed).moveDelay := by
  obtain ⟨h1, h2⟩ := reachable_delay_inv s h
  refine ⟨h1, ?_, le_max_left _ _⟩
  simp only [Snake.increase_speed]
  exact max_le h1 (by omega)

/-- Witness for C6 at the constructor state. -/
theorem C6_witness :
    (snakeInit (0, 0) 0).minMoveDelay ≤ (snakeInit (0, 0) 0).moveDelay ∧
    ((snakeInit (0, 0) 0).increase_speed).moveDelay ≤
      (snakeInit (0, 0) 0).moveDelay ∧
    (snakeInit (0, 0) 0).minMoveDelay ≤
      ((snakeInit (0, 0) 0).increase_speed).moveDelay :=
  C6_move_delay_floor _ (ReachableSnake.init (0, 0) 0)

/-- The direction after one `KEYDOWN` event only depends on the key and the
current direction, through the dict lookup and the reversal filter. -/
lemma handle_event_keydown_direction (g : Game) (k : PyKey) :
    (handle_event g (PyEvent.keydown k)).snake.direction =
      (match keyToDirection k with
       | some nd =>
           if directionAllowed nd g.snake.direction then nd
           else g.snake.direction
       | none => g.snake.direction) := by
  cases hk : keyToDirection k <;> simp only [handle_event, hk]
  · split <;> rfl
  · split <;> rfl

/-- C7: a single key-down never turns the snake towards the exact opposite of
its current direction, and every mapped key whose direction is not the
opposite of the current one replaces the direction. -/
theorem C7_no_reversal (g : Game) (k : PyKey) :
    (handle_event g (PyEvent.keydown k)).snake.direction ≠
      oppositeDir g.snake.direction ∧
    (∀ nd, keyToDirection k = some nd →
      nd ≠ oppositeDir g.snake.direction →
      (handle_event g (PyEvent.keydown k)).snake.direction = nd) := by
  have key : ∀ (k2 : PyKey) (cur : Direction),
      (match keyToDirection k2 with
       | some nd => if directionAllowed nd cur then nd else cur
       | none => cur) ≠ oppositeDir cur ∧
      (∀ nd, keyToDirection k2 = some nd → nd ≠ oppositeDir cur →
        (match keyToDirection k2 with
         | some nd2 => if directionAllowed nd2 cur then nd2 else cur
         | none => cur) = nd) := by decide
  rw [handle_event_keydown_direction]
  exact key k g.snake.direction

/-- Witness for C7: pressing Up while the sample snake moves right changes
the direction to Up. -/
theorem C7_witness :
    (handle_event sampleGame (PyEvent.keydown PyKey.K_UP)).snake.direction =
      Direction.UP :=
  (C7_no_reversal sampleGame PyKey.K_UP).2 Direction.UP rfl (by decide)

/-- One event clears `running` exactly when it is a `QUIT` or an Escape
`KEYDOWN` (and no event ever sets `running` back to true). -/
lemma handle_event_running (g : Game) (e : PyEvent) :
    ((handle_event g e).running = false) ↔
      (g.running = false ∨ isCancelEvent e = true) := by
  cases e with
  | quit => simp [handle_event, isCancelEvent]
  | keydown k =>
      cases k <;> simp [handle_event, keyToDirection, isCancelEvent] <;>
        split <;> simp
  | otherEvent => simp [handle_event, isCancelEvent]

/-- Folding `handle_event` over an event list clears `running` exactly when it
was already cleared or some event is a quit/escape event. -/
lemma handle_input_running (events : List PyEvent) : ∀ g : Game,
    ((handle_input g events).running = false) ↔
      (g.running = false ∨ events.any isCancelEvent = true) := by
  induction events with
  | nil => intro g; simp [handle_input]
  | cons e evs ih =>
      intro g
      have hstep : handle_input g (e :: evs) =
          handle_input (handle_event g e) evs := rfl
      rw [hstep, ih, handle_event_running]
      simp [or_assoc]

/-- C8: processing any event list containing an Escape `KEYDOWN` leaves the
running flag `False`, and the flag ends up `False` exactly when it already was
or some processed event is a `QUIT` or Escape `KEYDOWN` — the only
cancellation mechanisms. -/
theorem C8_escape_quits (events : List PyEvent) (g : Game) :
    (PyEvent.keydown PyKey.K_ESCAPE ∈ events →
      (handle_input g events).running = false) ∧
    ((handle_input g events).running = false ↔
      (g.running = false ∨ events.any isCancelEvent = true)) := by
  refine ⟨?_, handle_input_running events g⟩
  intro hmem
  rw [handle_input_running]
  right
  rw [List.any_eq_true]
  exact ⟨_, hmem, rfl⟩

/-- Witness for C8: a single Escape key-down stops the sample game. -/
theorem C8_witness :
    (handle_input sampleGame [PyEvent.keydown PyKey.K_ESCAPE]).running =
      false :=
  (C8_escape_quits [PyEvent.keydown PyKey.K_ESCAPE] sampleGame).1
    (List.Mem.head _)

/-- What one successful `check_collision` call does: `running` is cleared
exactly on the terminal condition, the head is untouched, and either the head
misses the apple and the snake and apple are untouched, or it overlaps it and
the snake grows and speeds up while the apple is respawned from the draws. -/
lemma check_collision_spec (cands : List Pos) (g gres : Game)
    (h : check_collision cands g = some gres) :
    gres.running = (g.running && !collisionCond g.snake) ∧
    gres.snake.head = g.snake.head ∧
    ((colliderect g.snake.head g.apple.rect = false ∧
        gres.snake = g.snake ∧ gres.apple = g.apple) ∨
     (colliderect g.snake.head g.apple.rect = true ∧
        gres.snake = g.snake.grow.increase_speed ∧
        appleInit none (g.snake.grow.increase_speed).parts cands =
          some gres.apple)) := by
  have hsn : (if collisionCond g.snake then { g with running := false }
      else g).snake = g.snake := by split <;> rfl
  have hap : (if collisionCond g.snake then { g with running := false }
      else g).apple = g.apple := by split <;> rfl
  have hrn : (if collisionCond g.snake then { g with running := false }
      else g).running = (g.running && !collisionCond g.snake) := by
    by_cases hc : collisionCond g.snake = true <;> simp [hc]
  simp only [check_collision, hsn, hap] at h
  by_cases hov : colliderect g.snake.head g.apple.rect = true
  · rw [if_pos hov] at h
    obtain ⟨a, ha, hgr⟩ := Option.map_eq_some'.mp h
    subst hgr
    refine ⟨hrn, rfl, Or.inr ⟨hov, rfl, ?_⟩⟩
    rw [ha]
  · rw [if_neg hov] at h
    cases h
    refine ⟨hrn, ?_, Or.inl ⟨Bool.eq_false_iff.mpr hov, hsn, hap⟩⟩
    rw [hsn]

/-- The terminal condition spelt out: a head/non-head segment overlap, or the
head's x outside `[0, 800)`, or its y outside `[0, 600)`. -/
lemma inPyRange_false_iff (v n : Int) :
    inPyRange v n = false ↔ ¬(0 ≤ v ∧ v < n) := by
  simp [inPyRange]

lemma collisionCond_iff (s : Snake) :
    collisionCond s = true ↔
      ((∃ r ∈ s.parts.drop 1, colliderect s.head r = true) ∨
       ¬(0 ≤ s.head.x ∧ s.head.x < screenSizeX) ∨
       ¬(0 ≤ s.head.y ∧ s.head.y < screenSizeY)) := by
  simp only [collisionCond, Bool.or_eq_true, List.any_eq_true,
    Bool.not_eq_true', inPyRange_false_iff, or_assoc]

/-- C2: when `check_collision` returns on a running game, the running flag has
been cleared exactly when the head overlapped a non-head segment or left the
`[0, 800) × [0, 600)` screen; and apart from that, processing input can clear
the flag only through a quit or escape event. -/
theorem C2_collision_check_sets_running (cands : List Pos) (g gres : Game)
    (hrun : g.running = true)
    (h : check_collision cands g = some gres) :
    (gres.running = false ↔
      ((∃ r ∈ g.snake.parts.drop 1, colliderect g.snake.head r = true) ∨
       ¬(0 ≤ g.snake.head.x ∧ g.snake.head.x < screenSizeX) ∨
       ¬(0 ≤ g.snake.head.y ∧ g.snake.head.y < screenSizeY))) ∧
    (∀ (events : List PyEvent) (g2 : Game),
      (handle_input g2 events).running = false →
      g2.running = false ∨ events.any isCancelEvent = true) := by
  refine ⟨?_, fun events g2 h2 => (handle_input_running events g2).mp h2⟩
  have hr := (check_collision_spec cands g gres h).1
  rw [hrun] at hr
  rw [← collisionCond_iff, hr]
  cases collisionCond g.snake <;> simp

/-- Witness for C2: the sample game has no collision, so the flag stays up. -/
theorem C2_witness :
    (sampleGame.running = false ↔
      ((∃ r ∈ sampleGame.snake.parts.drop 1,
          colliderect sampleGame.snake.head r = true) ∨
       ¬(0 ≤ sampleGame.snake.head.x ∧
          sampleGame.snake.head.x < screenSizeX) ∨
       ¬(0 ≤ sampleGame.snake.head.y ∧
          sampleGame.snake.head.y < screenSizeY))) :=
  (C2_collision_check_sets_running [] sampleGame sampleGame rfl (by decide)).1

/-- Unfolding a successful `appleInit`: the rect sits at the accepted position
and has the object size. -/
lemma appleInit_spec (oldPos : Option Pos) (parts : List Rect)
    (cands : List Pos) (a : Apple)
    (h : appleInit oldPos parts cands = some a) :
    findAccepted oldPos parts cands = some a.rect.topleft ∧
    a.rect.w = objectSize ∧ a.rect.h = objectSize := by
  unfold appleInit at h
  cases hf : findAccepted oldPos parts cands with
  | none => rw [hf] at h; cases h
  | some p => rw [hf] at h; cases h; simp [mkRect, Rect.topleft]

/-- C5: a head–apple overlap at `check_collision` produces all three effects:
one more segment, the delay stepped down to its floor-clamped value, and a
fresh apple of object size whose position is the first accepted draw for the
grown snake. -/
theorem C5_eat_apple_effects (cands : List Pos) (g gres : Game)
    (hov : colliderect g.snake.head g.apple.rect = true)
    (h : check_collision cands g = some gres) :
    gres.snake.parts.length = g.snake.parts.length + 1 ∧
    gres.snake.moveDelay =
      max g.snake.minMoveDelay (g.snake.moveDelay - g.snake.moveDelayStep) ∧
    findAccepted none gres.snake.parts cands = some gres.apple.rect.topleft ∧
    gres.apple.rect.w = objectSize ∧ gres.apple.rect.h = objectSize := by
  obtain ⟨-, -, hcases⟩ := check_collision_spec cands g gres h
  rcases hcases with ⟨hno, -, -⟩ | ⟨-, hsn, hai⟩
  · rw [hov] at hno; cases hno
  · obtain ⟨hfa, hw, hh⟩ := appleInit_spec _ _ _ _ hai
    refine ⟨?_, ?_, ?_, hw, hh⟩
    · rw [hsn]; simp [Snake.grow, Snake.increase_speed, Snake.parts]
    · rw [hsn]; rfl
    · rw [hsn]; exact hfa

/-- A concrete game one tick from eating: the head sits exactly on the apple
and there is one tail segment just behind it. -/
def eatGame : Game :=
  { snake :=
      { head := mkRect (200, 100) 20 20
        tail := [mkRect (180, 100) 20 20]
        direction := Direction.RIGHT
        size := 20
        minMoveDelay := 50
        moveDelayStep := 5
        moveDelay := 200
        lastMoveTime := 0 }
    apple := ⟨mkRect (200, 100) 20 20⟩
    running := true }

/-- The state `check_collision` yields from `eatGame` with the single
draw `(400, 300)`. -/
def eatResult : Game :=
  { snake :=
      { head := mkRect (200, 100) 20 20
        tail := [mkRect (180, 100) 20 20, mkRect (160, 100) 20 20]
        direction := Direction.RIGHT
        size := 20
        minMoveDelay := 50
        moveDelayStep := 5
        moveDelay := 195
        lastMoveTime := 0 }
    apple := ⟨mkRect (400, 300) 20 20⟩
    running := true }

/-- Witness for C5 on the concrete eating step. -/
theorem C5_witness :
    eatResult.snake.parts.length = eatGame.snake.parts.length + 1 ∧
    eatResult.snake.moveDelay =
      max eatGame.snake.minMoveDelay
        (eatGame.snake.moveDelay - eatGame.snake.moveDelayStep) ∧
    findAccepted none eatResult.snake.parts [(400, 300)] =
      some eatResult.apple.rect.topleft ∧
    eatResult.apple.rect.w = objectSize ∧
    eatResult.apple.rect.h = objectSize :=
  C5_eat_apple_effects [(400, 300)] eatGame eatResult (by decide) (by decide)

lemma moveHead_topleft (d : Direction) (size : Int) (r : Rect) :
    (moveHead d size r).topleft = r.topleft + dirOffset d size := by
  cases d <;>
    simp [moveHead, dirOffset, Rect.topleft, Prod.ext_iff, sub_eq_add_neg]

lemma shiftTail_get?_topleft (prev : Rect) (l : List Rect) (j : Nat)
    (hj : j < l.length) :
    ((shiftTail prev l).get? j).map Rect.topleft =
      ((prev :: l).get? j).map Rect.topleft := by
  induction l generalizing prev j with
  | nil => simp at hj
  | cons r rest ih =>
      cases j with
      | zero => simp [shiftTail, Rect.topleft]
      | succ j2 => simpa [shiftTail] using ih r j2 (by simpa using hj)

lemma grow_speed_tail (s : Snake) :
    (s.grow.increase_speed).tail = s.tail ++ [growOffset s.direction s.size
      (mkRect (s.tail.getLastD s.head).topleft s.size s.size)] := rfl

/-- C3: once the delay has strictly elapsed, `move` puts the head one cell
further in the current direction and gives every trailing segment that
already existed the position its predecessor held before the move (a later
growth can only append after them). -/
theorem C3_move_advances_and_shifts (t : Int) (cands : List Pos)
    (g gres : Game)
    (hdelay : g.snake.moveDelay < t - g.snake.lastMoveTime)
    (h : Snake.move t cands g = some gres) :
    gres.snake.head.topleft =
      g.snake.head.topleft + dirOffset g.snake.direction g.snake.size ∧
    ∀ j : Nat, j < g.snake.tail.length →
      (gres.snake.tail.get? j).map Rect.topleft =
        (g.snake.parts.get? j).map Rect.topleft := by
  have hn : ¬(t - g.snake.lastMoveTime ≤ g.snake.moveDelay) :=
    not_le.mpr hdelay
  simp only [Snake.move, hn, if_false] at h
  obtain ⟨-, hhead, hcases⟩ := check_collision_spec _ _ _ h
  constructor
  · rw [hhead]
    exact moveHead_topleft g.snake.direction g.snake.size g.snake.head
  · intro j hj
    have hshift := shiftTail_get?_topleft g.snake.head g.snake.tail j hj
    have hjlen : j < (shiftTail g.snake.head g.snake.tail).length := by
      rw [shiftTail_length]; exact hj
    rcases hcases with ⟨-, hsn, -⟩ | ⟨-, hsn, -⟩
    · rw [hsn]
      exact hshift
    · rw [hsn, grow_speed_tail]
      rw [List.get?_eq_getElem?, List.getElem?_append_left hjlen,
        ← List.get?_eq_getElem?]
      exact hshift

/-- A concrete two-segment snake about to move right. -/
def gameW : Game :=
  { snake :=
      { head := mkRect (100, 100) 20 20
        tail := [mkRect (80, 100) 20 20]
        direction := Direction.RIGHT
        size := 20
        minMoveDelay := 50
        moveDelayStep := 5
        moveDelay := 200
        lastMoveTime := 0 }
    apple := ⟨mkRect (400, 300) 20 20⟩
    running := true }

/-- The state `move` yields from `gameW` at tick 300. -/
def gameWmoved : Game :=
  { snake :=
      { head := mkRect (120, 100) 20 20
        tail := [mkRect (100, 100) 20 20]
        direction := Direction.RIGHT
        size := 20
        minMoveDelay := 50
        moveDelayStep := 5
        moveDelay := 200
        lastMoveTime := 300 }
    apple := ⟨mkRect (400, 300) 20 20⟩
    running := true }

/-- Witness for C3 on the concrete move. -/
theorem C3_witness :
    gameWmoved.snake.head.topleft =
      gameW.snake.head.topleft +
        dirOffset gameW.snake.direction gameW.snake.size ∧
    (gameWmoved.snake.tail.get? 0).map Rect.topleft =
      (gameW.snake.parts.get? 0).map Rect.topleft :=
  ⟨(C3_move_advances_and_shifts 300 [] gameW gameWmoved (by decide)
      (by decide)).1,
   (C3_move_advances_and_shifts 300 [] gameW gameWmoved (by decide)
      (by decide)).2 0 (by decide)⟩

/-- C1 counterexample: at the respawn triggered from `eatGame` (the head
overlaps the apple), the draw `(200, 100)` is accepted even though it is both
the old apple's position and the head segment's position — the spawn loop
only rejects positions on `parts[1:]` and, since the respawn passes no
`old_position`, never compares against the previous apple position. -/
theorem C1_counterexample :
    colliderect eatGame.snake.head eatGame.apple.rect = true ∧
    (check_collision [(200, 100)] eatGame).map
      (fun g2 => g2.apple.rect.topleft) = some (200, 100) ∧
    eatGame.apple.rect.topleft = (200, 100) ∧
    eatGame.snake.head.topleft = (200, 100) := by decide

/-- C1 (amended): the apple position is resampled until it coincides with no
snake segment other than the head, and differs from the previous position
only when one is passed in (the respawn call passes none). -/
theorem C1_apple_spawn_avoids_body (oldPos : Option Pos) (parts : List Rect)
    (cands : List Pos) (p : Pos)
    (h : findAccepted oldPos parts cands = some p) :
    (∀ r ∈ parts.drop 1, p ≠ r.topleft) ∧
    (∀ q, oldPos = some q → p ≠ q) := by
  have hrej := findAccepted_not_rejected oldPos parts cands p h
  simp only [appleReject, Bool.or_eq_false_iff, List.any_eq_false,
    beq_eq_false_iff_ne, ne_eq] at hrej
  obtain ⟨hold, hbody⟩ := hrej
  refine ⟨fun r hr => by simpa using hbody r hr, fun q hq => ?_⟩
  intro hpq
  exact hold (by rw [hq, hpq])

/-- Witness for C1 (amended): with previous position `(0, 0)` and the eating
game's segments, the accepted draw `(400, 300)` avoids the body segment and
the previous position. -/
theorem C1_witness :
    ((400 : Int), (300 : Int)) ≠ (mkRect (180, 100) 20 20).topleft ∧
    ((400 : Int), (300 : Int)) ≠ ((0 : Int), (0 : Int)) :=
  ⟨(C1_apple_spawn_avoids_body (some (0, 0)) eatGame.snake.parts
      [(400, 300)] (400, 300) (by decide)).1 _ (by decide),
   (C1_apple_spawn_avoids_body (some (0, 0)) eatGame.snake.parts
      [(400, 300)] (400, 300) (by decide)).2 (0, 0) rfl⟩
